import Mathlib

/-!
Verification development for gcal-tui (motemen/gcal-tui), a terminal
single-day calendar reviewer. The definitions below are a shallow embedding
of src/main.go: the event ingestion loop, the pairwise conflict detector,
and the bubbletea-style review state machine (model, Update, commands).
Go time.Time values are embedded as Int Unix seconds, since the code
compares instants via Unix(); the day constant is 86400 seconds.
-/

namespace GcalTui

/-- One attendee record as consumed from the calendar API
(fields Self, ResponseStatus, Comment of calendar.EventAttendee). -/
structure Attendee where
  Self : Bool
  ResponseStatus : String
  Comment : String
deriving Repr, DecidableEq

/-- Raw start or end timestamp string exactly as the ingestion loop in
main.go observes it: the code first checks emptiness (it.Start.DateTime
compared with the empty string) and otherwise parses RFC3339 through the
external time library. We embed that observation: the string is empty, a
malformed non-empty string, or a well-formed timestamp carrying its parsed
Unix value. -/
inductive RawTime where
  | empty
  | malformed (s : String)
  | valid (unix : Int)
deriving Repr, DecidableEq

/-- Result of comparing the raw DateTime string with the empty string. -/
def RawTime.isEmptyStr : RawTime → Bool
  | .empty => true
  | .malformed _ => false
  | .valid _ => false

/-- Embedding of the time.Parse(time.RFC3339, s) call of the ingestion
loop: a well-formed string yields its Unix instant, anything else an
error from the time library (exact text belongs to the library). -/
def RawTime.parseRFC3339 : RawTime → Except String Int
  | .empty => .error "parsing time: empty string"
  | .malformed s => .error ("parsing time " ++ s)
  | .valid u => .ok u

/-- One raw event record (calendar.Event) as consumed by the ingestion
loops of loadEvents and fetchEventsForDate: id, summary, the raw start and
end DateTime strings, the attendee list and the Creator.Self flag. -/
structure RawEvent where
  Id : String
  Summary : String
  StartRaw : RawTime
  EndRaw : RawTime
  Attendees : List Attendee
  CreatorSelf : Bool
deriving Repr, DecidableEq

/-- The eventItem struct of main.go: the embedded raw fields the core
reads (Id, Summary, Attendees) plus the parsed Start and End instants
(Unix seconds) and the derived AttendeeStatus. The ConflictsWith slice is
computed separately by the conflict detector (conflictsOf below), since in
Go it holds pointers into the same event list. -/
structure EventItem where
  Id : String
  Summary : String
  Start : Int
  End : Int
  AttendeeStatus : String
  Attendees : List Attendee
deriving Repr, DecidableEq

/-- Method Declined of eventItem: AttendeeStatus == "declined". -/
def EventItem.Declined (e : EventItem) : Bool :=
  e.AttendeeStatus == "declined"

/-- Method Accepted of eventItem: AttendeeStatus == "accepted". -/
def EventItem.Accepted (e : EventItem) : Bool :=
  e.AttendeeStatus == "accepted"

/-- Method intersectsWith of eventItem, verbatim from main.go:
return !(e.End.Unix() <= e2.Start.Unix() || e2.End.Unix() <= e.Start.Unix()). -/
def EventItem.intersectsWith (e e2 : EventItem) : Bool :=
  !(decide (e.End ≤ e2.Start) || decide (e2.End ≤ e.Start))

/-- Inner loop of the conflict detection pass in loadEvents and
fetchEventsForDate: walk the whole event list, skip declined entries, skip
entries carrying the same id as ev, and append every remaining entry whose
interval intersects ev. -/
def conflictScanInner (ev : EventItem) : List EventItem → List EventItem
  | [] => []
  | ev2 :: rest =>
    if ev2.Declined then conflictScanInner ev rest
    else if ev.Id == ev2.Id then conflictScanInner ev rest
    else if ev.intersectsWith ev2 then ev2 :: conflictScanInner ev rest
    else conflictScanInner ev rest

/-- The ConflictsWith slice the outer conflict loop leaves on ev: declined
events are skipped by the outer loop, so their slice stays empty; every
other event gets the inner scan over the full list. -/
def conflictsOf (events : List EventItem) (ev : EventItem) : List EventItem :=
  if ev.Declined then [] else conflictScanInner ev events

/-- One enriched event of a reload result: the eventItem together with its
computed ConflictsWith slice. In Go the slice holds pointers into the same
list (a cyclic graph); here each partner is recorded by its base fields. -/
structure LoadedEvent where
  item : EventItem
  ConflictsWith : List EventItem
deriving Repr, DecidableEq

/-- The conflict detection pass as a whole: attach to every event of the
ingested list its ConflictsWith slice. -/
def detectConflicts (events : List EventItem) : List LoadedEvent :=
  events.map (fun ev => { item := ev, ConflictsWith := conflictsOf events ev })

/-- The attendee scan of the ingestion loops: AttendeeStatus starts as
"unknown", and the first attendee with Self set overwrites it with its
ResponseStatus (the Go loop breaks at the first match). -/
def computeAttendeeStatusLoop : List Attendee → String
  | [] => "unknown"
  | a :: rest => if a.Self then a.ResponseStatus else computeAttendeeStatusLoop rest

/-- Construction of one eventItem from a raw record whose timestamps
parsed to startUnix and endUnix, mirroring the loop body of loadEvents and
fetchEventsForDate: derive AttendeeStatus from the attendee scan, then
normalize "unknown" to "accepted" when Creator.Self is set. -/
def ingestRaw (it : RawEvent) (startUnix endUnix : Int) : EventItem :=
  let status0 := computeAttendeeStatusLoop it.Attendees
  let status := if status0 == "unknown" && it.CreatorSelf then "accepted" else status0
  { Id := it.Id, Summary := it.Summary, Start := startUnix, End := endUnix,
    AttendeeStatus := status, Attendees := it.Attendees }

/-- The ingestion loop of fetchEventsForDate: a record whose start or end
DateTime string is empty is skipped with continue; otherwise both strings
are RFC3339-parsed and a parse failure makes the whole call return the
error (loadEvents has the same loop but reports the parse failure through
log.Fatalf, which likewise abandons the rest of the fetch). -/
def ingestEventsLoop : List RawEvent → Except String (List EventItem)
  | [] => Except.ok []
  | it :: rest =>
    if it.StartRaw.isEmptyStr || it.EndRaw.isEmptyStr then
      ingestEventsLoop rest
    else
      match it.StartRaw.parseRFC3339 with
      | Except.error e => Except.error e
      | Except.ok s =>
        match it.EndRaw.parseRFC3339 with
        | Except.error e => Except.error e
        | Except.ok en =>
          match ingestEventsLoop rest with
          | Except.error e => Except.error e
          | Except.ok evs => Except.ok (ingestRaw it s en :: evs)

/-- fetchEventsForDate after the API listing returned items: ingest the
raw records, then run the conflict detection pass. -/
def fetchEventsForDate (items : List RawEvent) : Except String (List LoadedEvent) :=
  match ingestEventsLoop items with
  | Except.error e => Except.error e
  | Except.ok evs => Except.ok (detectConflicts evs)

/-- The day constant of main.go, in embedded Unix seconds: 24 hours. -/
def day : Int := 86400

/-- Digit test used by the embedded date parser. -/
def isDigitChar (c : Char) : Bool := decide ('0' ≤ c) && decide (c ≤ '9')

/-- Numeric value of a decimal digit character. -/
def digitVal (c : Char) : Nat := c.toNat - '0'.toNat

/-- Gregorian leap year rule, as the Go time package applies it when
validating a day-of-month. -/
def isLeapYear (y : Nat) : Bool :=
  y % 4 == 0 && (y % 100 != 0 || y % 400 == 0)

/-- Number of days in the given month of the given year. -/
def daysInMonth (y m : Nat) : Nat :=
  if m == 2 then (if isLeapYear y then 29 else 28)
  else if m == 4 || m == 6 || m == 9 || m == 11 then 30
  else 31

/-- Embedding of Go time.Parse with layout 2006-01-02 as the date-jump
confirm handler calls it: exactly ten characters, four year digits, a
dash, two month digits, a dash, two day digits; the month must lie in
1..12 and the day in 1..daysInMonth, otherwise the parse errors. Yields
the (year, month, day) triple on success. -/
def parseDate (s : String) : Option (Nat × Nat × Nat) :=
  match s.toList with
  | [y1, y2, y3, y4, c1, m1, m2, c2, d1, d2] =>
    if c1 == '-' && c2 == '-' &&
        (isDigitChar y1 && isDigitChar y2 && isDigitChar y3 && isDigitChar y4 &&
         isDigitChar m1 && isDigitChar m2 && isDigitChar d1 && isDigitChar d2) then
      let y := ((digitVal y1 * 10 + digitVal y2) * 10 + digitVal y3) * 10 + digitVal y4
      let mo := digitVal m1 * 10 + digitVal m2
      let d := digitVal d1 * 10 + digitVal d2
      if 1 ≤ mo ∧ mo ≤ 12 ∧ 1 ≤ d ∧ d ≤ daysInMonth y mo then some (y, mo, d)
      else none
    else none
  | _ => none

/-- Days since the Unix epoch of a civil (year, month, day), the standard
era-based computation; used to embed the time.Time value that Go
time.Parse returns for a 2006-01-02 layout (midnight UTC). -/
def daysFromCivil (y m d : Int) : Int :=
  let yAdj := if m ≤ 2 then y - 1 else y
  let era := Int.fdiv yAdj 400
  let yoe := yAdj - era * 400
  let mp := Int.fmod (m + 9) 12
  let doy := Int.fdiv (153 * mp + 2) 5 + d - 1
  let doe := yoe * 365 + Int.fdiv yoe 4 - Int.fdiv yoe 100 + doy
  era * 146097 + doe - 719468

/-- Unix seconds of midnight UTC on the given civil date. -/
def dateToUnix (y m d : Nat) : Int :=
  daysFromCivil (Int.ofNat y) (Int.ofNat m) (Int.ofNat d) * 86400

/-- Civil (year, month, day) of a count of days since the Unix epoch,
inverse of daysFromCivil; used to embed Format with layout 2006-01-02. -/
def civilFromDays (days0 : Int) : Int × Int × Int :=
  let z := days0 + 719468
  let era := Int.fdiv z 146097
  let doe := z - era * 146097
  let yoe := Int.fdiv (doe - Int.fdiv doe 1460 + Int.fdiv doe 36524 - Int.fdiv doe 146096) 365
  let y := yoe + era * 400
  let doy := doe - (365 * yoe + Int.fdiv yoe 4 - Int.fdiv yoe 100)
  let mp := Int.fdiv (5 * doy + 2) 153
  let d := doy - Int.fdiv (153 * mp + 2) 5 + 1
  let m := if mp < 10 then mp + 3 else mp - 9
  (if m ≤ 2 then y + 1 else y, m, d)

/-- Zero-padded two-digit rendering. -/
def pad2 (n : Int) : String := (if n < 10 then "0" else "") ++ toString n

/-- Zero-padded four-digit rendering. -/
def pad4 (n : Int) : String :=
  (if n < 10 then "000" else if n < 100 then "00" else if n < 1000 then "0" else "") ++ toString n

/-- Embedding of t.Format with layout 2006-01-02 for the midnight-UTC
instants the model holds. -/
def formatDate (t : Int) : String :=
  match civilFromDays (Int.fdiv t 86400) with
  | (y, m, d) => pad4 y ++ "-" ++ pad2 m ++ "-" ++ pad2 d

/-- Modelled error text of a failed Go time.Parse call; the exact wording
comes from the external time library and only its presence matters to the
state machine, which stores err.Error() into errorMessage. -/
def timeParseErrorMessage (value : String) : String :=
  "parsing time " ++ value ++ " as 2006-01-02: cannot parse"

/-- The uiMode enumeration of main.go. -/
inductive UiMode where
  | uiModeDefault
  | uiModeInputDate
  | uiModeInputNote
deriving Repr, DecidableEq

/-- The model struct of main.go restricted to the core review state: the
displayed date, the loaded event list, the two text-input values, the
note target id, the ui mode and the non-fatal error message. The list and
text-input component internals (cursor, spinner, sizes) are view-layer
state and are not part of the embedding. -/
structure Model where
  date : Int
  events : List LoadedEvent
  inputDate : String
  inputNote : String
  selectedEventId : String
  uiMode : UiMode
  errorMessage : String
deriving Repr, DecidableEq

/-- The messages the Update function dispatches on (tea.Msg variants
defined in main.go). eventsLoaded carries only the enriched event list,
exactly as eventsLoadedMsg does in the source: no day or request token. -/
inductive Msg where
  | eventsLoaded (events : List LoadedEvent)
  | eventUpdated
  | nonFatalError (errorMessage : String)
  | addNote (eventId : String)
deriving Repr, DecidableEq

/-- The commands the state machine emits (tea.Cmd values). The loadEvents
command records the date the issuing model carried, because the Go method
value m.loadEvents captures a copy of m and reads m.date when it runs. -/
inductive Cmd where
  | startSpinner
  | setItems (items : List LoadedEvent)
  | loadEvents (date : Int)
  | updateNote (eventId note : String)
  | updateStatus (eventId status : String)
  | blink
  | batch (cmds : List Cmd)
  | noCmd

/-- The key bindings of the default mode that the claims touch, key
presses abstracted to named actions (appKeys in main.go); quit is handled
by returning tea.Quit and is outside the review state. -/
inductive KeyAction where
  | gotoToday
  | reload
  | nextDay
  | prevDay
  | jumpToDay
deriving Repr, DecidableEq

/-- One incoming tea message: an application message, an abstracted
default-mode key binding, or the enter key. -/
inductive TeaMsg where
  | app (msg : Msg)
  | key (a : KeyAction)
  | keyEnter
deriving Repr, DecidableEq

/-- Method reloadEvents of model: set the date (and the list title, a
view concern), then batch a spinner start, an item reset to the empty
list, and the loadEvents command capturing the new date. -/
def Model.reloadEvents (m : Model) (date : Int) : Model × Cmd :=
  let m2 := { m with date := date }
  (m2, Cmd.batch [Cmd.startSpinner, Cmd.setItems [], Cmd.loadEvents m2.date])

/-- Method enterJumpToDayMode of model: clear the error message, switch
to the date input mode and prefill the field with the current date. -/
def Model.enterJumpToDayMode (m : Model) : Model × Cmd :=
  ({ m with errorMessage := "", uiMode := UiMode.uiModeInputDate,
            inputDate := formatDate m.date }, Cmd.blink)

/-- Method enterNoteInputMode of model: clear the error message, switch
to the note input mode, remember the target id, and prefill the note
field with the first nonempty self-attendee comment of the target event
(the Go double loop with breaks). -/
def Model.enterNoteInputMode (m : Model) (eventId : String) : Model × Cmd :=
  let existingNote :=
    match m.events.find? (fun e => e.item.Id == eventId) with
    | some ev =>
      match ev.item.Attendees.find? (fun a => a.Self && a.Comment != "") with
      | some a => a.Comment
      | none => ""
    | none => ""
  ({ m with errorMessage := "", uiMode := UiMode.uiModeInputNote,
            selectedEventId := eventId, inputNote := existingNote }, Cmd.blink)

/-- The handleDefaultModeKeyMsg switch of main.go over the bound keys. -/
def Model.handleDefaultModeKey (m : Model) (todayDate : Int) : KeyAction → Model × Cmd
  | KeyAction.gotoToday => m.reloadEvents todayDate
  | KeyAction.reload => m.reloadEvents m.date
  | KeyAction.nextDay => m.reloadEvents (m.date + day)
  | KeyAction.prevDay => m.reloadEvents (m.date - day)
  | KeyAction.jumpToDay => m.enterJumpToDayMode

/-- The Update function of main.go on the core state: application
messages are handled uniformly, key messages per ui mode. In the date
input mode the enter key parses the field with layout 2006-01-02; a parse
failure stores the error text and stays in the mode, success switches to
the default mode and reloads the parsed date. In the note input mode
enter switches back to the default mode and emits the note patch command.
Component updates (spinner, list, textinput) that follow the switch in Go
are view-layer and omitted. todayDate stands for the clock reading that
the today() helper performs. -/
def Model.update (m : Model) (todayDate : Int) : TeaMsg → Model × Cmd
  | TeaMsg.app (Msg.eventsLoaded evs) =>
    ({ m with events := evs }, Cmd.setItems evs)
  | TeaMsg.app Msg.eventUpdated => (m, Cmd.noCmd)
  | TeaMsg.app (Msg.nonFatalError s) => ({ m with errorMessage := s }, Cmd.noCmd)
  | TeaMsg.app (Msg.addNote eventId) => m.enterNoteInputMode eventId
  | TeaMsg.key a =>
    match m.uiMode with
    | UiMode.uiModeDefault => m.handleDefaultModeKey todayDate a
    | _ => (m, Cmd.noCmd)
  | TeaMsg.keyEnter =>
    match m.uiMode with
    | UiMode.uiModeDefault => (m, Cmd.noCmd)
    | UiMode.uiModeInputDate =>
      match parseDate m.inputDate with
      | none => ({ m with errorMessage := timeParseErrorMessage m.inputDate }, Cmd.noCmd)
      | some (y, mo, d) =>
        Model.reloadEvents { m with uiMode := UiMode.uiModeDefault } (dateToUnix y mo d)
    | UiMode.uiModeInputNote =>
      ({ m with uiMode := UiMode.uiModeDefault },
       Cmd.batch [Cmd.startSpinner, Cmd.updateNote m.selectedEventId m.inputNote])

/-- The body of model.loadEvents once the API listing returned items: the
shared ingestion pipeline followed by conflict detection, wrapped into an
eventsLoadedMsg; a timestamp parse failure aborts through log.Fatalf,
embedded as the error branch. -/
def loadEventsRun (items : List RawEvent) : Except String Msg :=
  match fetchEventsForDate items with
  | Except.error e => Except.error e
  | Except.ok evs => Except.ok (Msg.eventsLoaded evs)

/-- Outcome of the Events.Patch call performed by the patch commands. -/
inductive PatchOutcome where
  | ok
  | fail (errText : String)
deriving Repr, DecidableEq

/-- Result of running a patch command: either a message reinjected into
the state machine, or a log.Fatalf that terminates the process. -/
inductive CmdResult where
  | msg (m : Msg)
  | fatal (errText : String)
deriving Repr, DecidableEq

/-- One patch request sent to the calendar collaborator: the event id and
the attendee list carried in the request body. -/
structure PatchRequest where
  eventId : String
  attendees : List Attendee
deriving Repr, DecidableEq

/-- The attendee mutation loop of updateEventStatus: the first attendee
with Self set gets its ResponseStatus overwritten (break after the first
match); the Bool reports whether a self attendee was found, since the
event AttendeeStatus is only overwritten in that case. -/
def setSelfStatusLoop (status : String) : List Attendee → List Attendee × Bool
  | [] => ([], false)
  | a :: rest =>
    if a.Self then ({ a with ResponseStatus := status } :: rest, true)
    else
      match setSelfStatusLoop status rest with
      | (rest2, found) => (a :: rest2, found)

/-- updateEventStatus of main.go, as a function of the selected event,
the requested status and the patch outcome: the code first overwrites the
self attendee ResponseStatus and the event AttendeeStatus, then issues
Events.Patch; a patch failure hits log.Fatalf (process termination), only
success produces eventUpdatedMsg. Returns the resulting local event value
alongside the command result. -/
def updateEventStatus (ev : EventItem) (status : String)
    (outcome : PatchOutcome) : EventItem × CmdResult :=
  match setSelfStatusLoop status ev.Attendees with
  | (atts, found) =>
    let ev2 := { ev with Attendees := atts,
                         AttendeeStatus := if found then status else ev.AttendeeStatus }
    match outcome with
    | PatchOutcome.fail e => (ev2, CmdResult.fatal e)
    | PatchOutcome.ok => (ev2, CmdResult.msg Msg.eventUpdated)

/-- The attendee mutation loop of updateEventNote: the first attendee
with Self set gets its Comment overwritten (break after the first
match). -/
def setSelfCommentLoop (note : String) : List Attendee → List Attendee
  | [] => []
  | a :: rest =>
    if a.Self then { a with Comment := note } :: rest
    else a :: setSelfCommentLoop note rest

/-- Pointer mutation of the target event inside m.events as updateEventNote
performs it: the first event carrying the id gets its attendee comment
rewritten; everything else is untouched. -/
def updateNoteInEvents (eventId note : String) : List LoadedEvent → List LoadedEvent
  | [] => []
  | e :: rest =>
    if e.item.Id == eventId then
      { e with item := { e.item with Attendees := setSelfCommentLoop note e.item.Attendees } } :: rest
    else e :: updateNoteInEvents eventId note rest

/-- updateEventNote of main.go as a function of the captured event list
(the receiver holds m.events), the target id, the note text and the patch
outcome. The code searches the list for the id; a miss yields
nonFatalErrorMsg "Event not found" with no patch issued and no mutation.
On a hit the self attendee comment is overwritten first, then the patch
carrying the mutated attendees is issued; a failure yields a non-fatal
error message, leaving the local mutation in place. Returns the resulting
event list, the issued patch request if any, and the produced message. -/
def updateEventNote (events : List LoadedEvent) (eventId note : String)
    (outcome : PatchOutcome) : List LoadedEvent × Option PatchRequest × Msg :=
  match events.find? (fun e => e.item.Id == eventId) with
  | none => (events, none, Msg.nonFatalError "Event not found")
  | some target =>
    let newAtts := setSelfCommentLoop note target.item.Attendees
    let events2 := updateNoteInEvents eventId note events
    match outcome with
    | PatchOutcome.fail e =>
      (events2, some { eventId := eventId, attendees := newAtts },
       Msg.nonFatalError ("Failed to update note: " ++ e))
    | PatchOutcome.ok =>
      (events2, some { eventId := eventId, attendees := newAtts }, Msg.eventUpdated)

/-! Helper lemmas about the conflict detector. -/

/-- Predicate form of the three inner-loop guards: not declined, a
different id, and an interval intersection. -/
def conflictPred (ev ev2 : EventItem) : Bool :=
  !ev2.Declined && !(ev.Id == ev2.Id) && ev.intersectsWith ev2

theorem conflictScanInner_eq_filter (ev : EventItem) (l : List EventItem) :
    conflictScanInner ev l = l.filter (conflictPred ev) := by
  induction l with
  | nil => rfl
  | cons a rest ih =>
    by_cases h1 : a.Declined <;> by_cases h2 : (ev.Id == a.Id) = true <;>
      by_cases h3 : ev.intersectsWith a <;>
        simp [conflictScanInner, List.filter, conflictPred, h1, h2, h3, ih]

theorem mem_conflictsOf (events : List EventItem) (ev x : EventItem) :
    x ∈ conflictsOf events ev ↔
      (ev.Declined = false ∧ x ∈ events ∧ x.Declined = false ∧
       ev.Id ≠ x.Id ∧ ev.intersectsWith x = true) := by
  unfold conflictsOf
  by_cases h : ev.Declined <;>
    simp [h, conflictScanInner_eq_filter, List.mem_filter, conflictPred,
          Bool.and_eq_true, and_assoc]

theorem intersectsWith_symm (a b : EventItem) :
    a.intersectsWith b = b.intersectsWith a := by
  simp [EventItem.intersectsWith, Bool.or_comm]

theorem intersectsWith_eq_true_iff (a b : EventItem) :
    a.intersectsWith b = true ↔ ¬(a.End ≤ b.Start ∨ b.End ≤ a.Start) := by
  simp [EventItem.intersectsWith]

/-- C1 witness events: two overlapping accepted meetings. -/
def evA : EventItem :=
  { Id := "a", Summary := "standup", Start := 0, End := 3600,
    AttendeeStatus := "accepted", Attendees := [] }

def evB : EventItem :=
  { Id := "b", Summary := "review", Start := 1800, End := 5400,
    AttendeeStatus := "accepted", Attendees := [] }

/-- C1: for event pairs with positive duration, the detector marks them
overlapping exactly when the half-open intervals intersect, that is when
not (a.End ≤ b.Start or b.End ≤ a.Start); back-to-back events with
a.End = b.Start are never marked conflicting. -/
theorem overlap_formula (events : List EventItem) (a b : EventItem)
    (hA : a.Start < a.End) (hB : b.Start < b.End)
    (haE : a ∈ events) (had : a.Declined = false) (hbd : b.Declined = false)
    (hid : a.Id ≠ b.Id) :
    (b ∈ conflictsOf events a ↔ (b ∈ events ∧ ¬(a.End ≤ b.Start ∨ b.End ≤ a.Start))) ∧
    (a.End = b.Start → b ∉ conflictsOf events a) := by
  constructor
  · rw [mem_conflictsOf]
    constructor
    · rintro ⟨-, hbE, -, -, hint⟩
      exact ⟨hbE, (intersectsWith_eq_true_iff a b).1 hint⟩
    · rintro ⟨hbE, hform⟩
      exact ⟨had, hbE, hbd, hid, (intersectsWith_eq_true_iff a b).2 hform⟩
  · intro hback hmem
    rcases (mem_conflictsOf events a b).1 hmem with ⟨-, -, -, -, hint⟩
    have := (intersectsWith_eq_true_iff a b).1 hint
    omega

theorem overlap_formula_witness :
    ((evB ∈ conflictsOf [evA, evB] evA ↔
        (evB ∈ [evA, evB] ∧ ¬(evA.End ≤ evB.Start ∨ evB.End ≤ evA.Start))) ∧
     (evA.End = evB.Start → evB ∉ conflictsOf [evA, evB] evA)) :=
  overlap_formula [evA, evB] evA evB (by decide) (by decide)
    (by decide) (by decide) (by decide) (by decide)

/-- C6: the computed conflict relation over the events of one reload is
symmetric in the list members, no event ever lands in its own set, and
every member of a set carries a different id than the owner. -/
theorem conflict_symm_irrefl (events : List EventItem) (a b : EventItem)
    (ha : a ∈ events) (hb : b ∈ events) :
    (b ∈ conflictsOf events a ↔ a ∈ conflictsOf events b) ∧
    a ∉ conflictsOf events a ∧
    (b ∈ conflictsOf events a → a.Id ≠ b.Id) := by
  refine ⟨?_, ?_, ?_⟩
  · rw [mem_conflictsOf, mem_conflictsOf]
    constructor
    · rintro ⟨had, -, hbd, hid, hint⟩
      exact ⟨hbd, ha, had, fun h => hid h.symm, by rw [intersectsWith_symm]; exact hint⟩
    · rintro ⟨hbd, -, had, hid, hint⟩
      exact ⟨had, hb, hbd, fun h => hid h.symm, by rw [intersectsWith_symm]; exact hint⟩
  · intro hmem
    rcases (mem_conflictsOf events a a).1 hmem with ⟨-, -, -, hid, -⟩
    exact hid rfl
  · intro hmem
    exact ((mem_conflictsOf events a b).1 hmem).2.2.2.1

theorem conflict_symm_irrefl_witness :
    ((evB ∈ conflictsOf [evA, evB] evA ↔ evA ∈ conflictsOf [evA, evB] evB) ∧
     evA ∉ conflictsOf [evA, evB] evA ∧
     (evB ∈ conflictsOf [evA, evB] evA → evA.Id ≠ evB.Id)) :=
  conflict_symm_irrefl [evA, evB] evA evB (by decide) (by decide)

/-- C7: a declined event gets the empty conflict set and never appears in
the conflict set computed for any event. -/
theorem declined_no_conflicts (events : List EventItem) (a : EventItem)
    (h : a.Declined = true) :
    conflictsOf events a = [] ∧ ∀ b : EventItem, a ∉ conflictsOf events b := by
  constructor
  · unfold conflictsOf
    rw [h]
    rfl
  · intro b hmem
    rcases (mem_conflictsOf events b a).1 hmem with ⟨-, -, had, -, -⟩
    rw [h] at had
    exact Bool.true_eq_false.mp had

/-- C7 witness event: a declined meeting overlapping evA and evB. -/
def evDecl : EventItem :=
  { Id := "d", Summary := "declined mtg", Start := 0, End := 7200,
    AttendeeStatus := "declined", Attendees := [] }

theorem declined_no_conflicts_witness :
    (conflictsOf [evA, evB, evDecl] evDecl = [] ∧
     ∀ b : EventItem, evDecl ∉ conflictsOf [evA, evB, evDecl] b) :=
  declined_no_conflicts [evA, evB, evDecl] evDecl (by decide)

/-- C4 counterexample events: a zero-duration instant strictly inside a
wide meeting. -/
def evZero : EventItem :=
  { Id := "z", Summary := "instant", Start := 5, End := 5,
    AttendeeStatus := "accepted", Attendees := [] }

def evWide : EventItem :=
  { Id := "w", Summary := "wide", Start := 0, End := 10,
    AttendeeStatus := "accepted", Attendees := [] }

/-- C4 counterexample: a zero-duration event strictly inside another gets
a nonempty conflict set and appears in the other events set, so a
degenerate interval does participate in conflicts. -/
theorem zero_duration_conflicts_cex :
    evZero.Start = evZero.End ∧
    conflictsOf [evZero, evWide] evZero = [evWide] ∧
    evZero ∈ conflictsOf [evZero, evWide] evWide := by
  refine ⟨rfl, ?_, ?_⟩ <;> decide

/-- C4 amended: a zero-duration or inverted event is not excluded from
conflicts; the detector applies the same half-open formula, so such an
event a conflicts with exactly the non-declined different-id events b with
b.Start < a.End and a.Start < b.End (for a zero-duration event: the events
whose interval strictly contains its instant), and it still never
conflicts with an event it merely touches. -/
theorem degenerate_interval_conflicts (events : List EventItem) (a b : EventItem)
    (hdeg : a.End ≤ a.Start) :
    b ∈ conflictsOf events a ↔
      (a.Declined = false ∧ b ∈ events ∧ b.Declined = false ∧ a.Id ≠ b.Id ∧
       b.Start < a.End ∧ a.Start < b.End) := by
  rw [mem_conflictsOf, intersectsWith_eq_true_iff]
  constructor
  · rintro ⟨h1, h2, h3, h4, h5⟩
    exact ⟨h1, h2, h3, h4, by omega, by omega⟩
  · rintro ⟨h1, h2, h3, h4, h5, h6⟩
    exact ⟨h1, h2, h3, h4, by omega⟩

theorem degenerate_interval_conflicts_witness :
    (evWide ∈ conflictsOf [evZero, evWide] evZero ↔
      (evZero.Declined = false ∧ evWide ∈ [evZero, evWide] ∧
       evWide.Declined = false ∧ evZero.Id ≠ evWide.Id ∧
       evWide.Start < evZero.End ∧ evZero.Start < evWide.End)) :=
  degenerate_interval_conflicts [evZero, evWide] evZero evWide (by decide)

/-! Attendee status derivation (claim about ingestion normalization). -/

theorem computeAttendeeStatusLoop_eq (l : List Attendee) :
    computeAttendeeStatusLoop l =
      ((l.find? (fun a => a.Self)).map (fun a => a.ResponseStatus)).getD "unknown" := by
  induction l with
  | nil => rfl
  | cons a rest ih =>
    by_cases h : a.Self <;> simp [computeAttendeeStatusLoop, List.find?, h, ih]

/-- C8: the ingested AttendeeStatus is the first self attendee response
status, defaulting to "unknown" when no attendee has Self set; exactly
when that value is "unknown" and the viewer created the event it is
normalized to "accepted" at ingestion, otherwise it is kept as-is. -/
theorem attendee_status_normalization (it : RawEvent) (s e : Int) :
    (ingestRaw it s e).AttendeeStatus =
      if (((it.Attendees.find? (fun a => a.Self)).map
            (fun a => a.ResponseStatus)).getD "unknown") = "unknown" ∧
          it.CreatorSelf = true
      then "accepted"
      else ((it.Attendees.find? (fun a => a.Self)).map
            (fun a => a.ResponseStatus)).getD "unknown" := by
  simp only [ingestRaw, computeAttendeeStatusLoop_eq]
  by_cases h1 :
      (((it.Attendees.find? (fun a => a.Self)).map
        (fun a => a.ResponseStatus)).getD "unknown") = "unknown" <;>
    by_cases h2 : it.CreatorSelf <;> simp [h1, h2]

/-! Ingestion error handling (missing versus malformed timestamps). -/

/-- Condition under which the ingestion loops skip a record with
continue: the start or end DateTime string is empty. -/
def RawEvent.skippedForMissingTime (it : RawEvent) : Bool :=
  it.StartRaw.isEmptyStr || it.EndRaw.isEmptyStr

/-- Both timestamp strings are well-formed RFC3339. -/
def RawEvent.hasValidTimes (it : RawEvent) : Bool :=
  match it.StartRaw, it.EndRaw with
  | RawTime.valid _, RawTime.valid _ => true
  | _, _ => false

/-- The event a raw record contributes when no record of the fetch is
malformed: skipped records contribute nothing, well-formed records their
ingested eventItem. -/
def ingestValid (it : RawEvent) : Option EventItem :=
  match it.StartRaw, it.EndRaw with
  | RawTime.valid s, RawTime.valid e => some (ingestRaw it s e)
  | _, _ => none

theorem ingestEventsLoop_cons_skip (it : RawEvent) (rest : List RawEvent)
    (h : it.skippedForMissingTime = true) :
    ingestEventsLoop (it :: rest) = ingestEventsLoop rest := by
  have h2 : (it.StartRaw.isEmptyStr || it.EndRaw.isEmptyStr) = true := h
  simp [ingestEventsLoop, h2]

theorem ingestEventsLoop_cons_valid (it : RawEvent) (rest : List RawEvent)
    (s e : Int) (hs : it.StartRaw = RawTime.valid s) (he : it.EndRaw = RawTime.valid e) :
    ingestEventsLoop (it :: rest) =
      match ingestEventsLoop rest with
      | Except.error er => Except.error er
      | Except.ok evs => Except.ok (ingestRaw it s e :: evs) := by
  simp [ingestEventsLoop, hs, he, RawTime.isEmptyStr, RawTime.parseRFC3339]

theorem ingestEventsLoop_cons_bad (it : RawEvent) (rest : List RawEvent)
    (h1 : it.skippedForMissingTime = false) (h2 : it.hasValidTimes = false) :
    ∃ er, ingestEventsLoop (it :: rest) = Except.error er := by
  have hse : it.StartRaw.isEmptyStr = false ∧ it.EndRaw.isEmptyStr = false := by
    simpa [RawEvent.skippedForMissingTime] using h1
  have hcond : (it.StartRaw.isEmptyStr || it.EndRaw.isEmptyStr) = false := by
    rw [hse.1, hse.2]
    rfl
  cases hs : it.StartRaw with
  | empty => rw [hs] at hse; simp [RawTime.isEmptyStr] at hse
  | malformed str =>
    refine ⟨"parsing time " ++ str, ?_⟩
    rw [ingestEventsLoop]
    simp only [hcond]
    rw [hs]
    simp [RawTime.parseRFC3339]
  | valid s =>
    cases he : it.EndRaw with
    | empty => rw [he] at hse; simp [RawTime.isEmptyStr] at hse
    | malformed str =>
      refine ⟨"parsing time " ++ str, ?_⟩
      rw [ingestEventsLoop]
      simp only [hcond]
      rw [hs, he]
      simp [RawTime.parseRFC3339]
    | valid e =>
      rw [RawEvent.hasValidTimes, hs, he] at h2
      simp at h2

theorem ingestEventsLoop_cons_propagate (it : RawEvent) (rest : List RawEvent)
    (er : String) (h : ingestEventsLoop rest = Except.error er) :
    ∃ er2, ingestEventsLoop (it :: rest) = Except.error er2 := by
  by_cases hskip : it.skippedForMissingTime
  · exact ⟨er, by rw [ingestEventsLoop_cons_skip it rest hskip, h]⟩
  · by_cases hval : it.hasValidTimes
    · have hv : ∃ s e, it.StartRaw = RawTime.valid s ∧ it.EndRaw = RawTime.valid e := by
        rw [RawEvent.hasValidTimes] at hval
        cases hs : it.StartRaw <;> cases he : it.EndRaw <;>
          rw [hs, he] at hval <;> simp at hval
        exact ⟨_, _, rfl, rfl⟩
      rcases hv with ⟨s, e, hs, he⟩
      exact ⟨er, by rw [ingestEventsLoop_cons_valid it rest s e hs he, h]⟩
    · exact ingestEventsLoop_cons_bad it rest (by simpa using hskip) (by simpa using hval)

theorem ingestValid_eq_none_of_skipped (it : RawEvent)
    (h : it.skippedForMissingTime = true) : ingestValid it = none := by
  rw [RawEvent.skippedForMissingTime] at h
  rw [ingestValid]
  cases hs : it.StartRaw <;> cases he : it.EndRaw <;>
    rw [hs, he] at h <;> simp [RawTime.isEmptyStr] at h ⊢

/-- C5 amended: a record whose start or end DateTime string is missing
(empty) is skipped and the rest of the fetch is ingested, but a record
with a malformed non-empty timestamp aborts the whole fetch with an
error; only the missing-timestamp half of the original claim holds. -/
theorem ingest_skip_missing_abort_malformed (raws : List RawEvent) :
    ((∀ it ∈ raws, it.skippedForMissingTime || it.hasValidTimes) →
        ingestEventsLoop raws = Except.ok (raws.filterMap ingestValid)) ∧
    ((∃ it ∈ raws, it.skippedForMissingTime = false ∧ it.hasValidTimes = false) →
        ∃ er, ingestEventsLoop raws = Except.error er) := by
  induction raws with
  | nil =>
    constructor
    · intro _; rfl
    · rintro ⟨it, hmem, -⟩; cases hmem
  | cons it rest ih =>
    constructor
    · intro h
      have hrest := ih.1 (fun x hx => h x (List.mem_cons_of_mem _ hx))
      have hit := h it (List.mem_cons_self _ _)
      by_cases hskip : it.skippedForMissingTime
      · rw [ingestEventsLoop_cons_skip it rest hskip, hrest,
            List.filterMap_cons, ingestValid_eq_none_of_skipped it hskip]
      · have hval : it.hasValidTimes = true := by
          rcases Bool.or_eq_true_iff.mp hit with h' | h'
          · exact absurd h' hskip
          · exact h'
        rw [RawEvent.hasValidTimes] at hval
        have hv : ∃ s e, it.StartRaw = RawTime.valid s ∧ it.EndRaw = RawTime.valid e := by
          cases hs : it.StartRaw <;> cases he : it.EndRaw <;>
            rw [hs, he] at hval <;> simp at hval
          exact ⟨_, _, rfl, rfl⟩
        rcases hv with ⟨s, e, hs, he⟩
        rw [ingestEventsLoop_cons_valid it rest s e hs he, hrest,
            List.filterMap_cons]
        have : ingestValid it = some (ingestRaw it s e) := by
          rw [ingestValid, hs, he]
        rw [this]
    · rintro ⟨it0, hmem, hbad⟩
      rcases List.mem_cons.mp hmem with heq | hmem0
      · subst heq
        exact ingestEventsLoop_cons_bad it0 rest hbad.1 hbad.2
      · rcases ih.2 ⟨it0, hmem0, hbad⟩ with ⟨er, her⟩
        exact ingestEventsLoop_cons_propagate it rest er her

/-- C5 counterexample raw records: two well-formed meetings around one
with a malformed start timestamp. -/
def rawGoodA : RawEvent :=
  { Id := "ga", Summary := "good A", StartRaw := RawTime.valid 100,
    EndRaw := RawTime.valid 200, Attendees := [], CreatorSelf := false }

def rawGoodB : RawEvent :=
  { Id := "gb", Summary := "good B", StartRaw := RawTime.valid 300,
    EndRaw := RawTime.valid 400, Attendees := [], CreatorSelf := false }

def rawMissing : RawEvent :=
  { Id := "miss", Summary := "no start", StartRaw := RawTime.empty,
    EndRaw := RawTime.valid 500, Attendees := [], CreatorSelf := false }

def rawBadTime : RawEvent :=
  { Id := "bad", Summary := "broken clock", StartRaw := RawTime.malformed "9999-99-99",
    EndRaw := RawTime.valid 600, Attendees := [], CreatorSelf := false }

/-- C5 counterexample: a malformed start timestamp in the middle of the
fetch makes the whole fetch return an error instead of skipping the one
record and ingesting the two well-formed ones. -/
theorem malformed_aborts_fetch_cex :
    fetchEventsForDate [rawGoodA, rawBadTime, rawGoodB]
      = Except.error ("parsing time " ++ "9999-99-99") := by
  rfl

theorem ingest_skip_missing_abort_malformed_witness :
    (ingestEventsLoop [rawGoodA, rawMissing, rawGoodB]
      = Except.ok ([rawGoodA, rawMissing, rawGoodB].filterMap ingestValid)) ∧
    (∃ er, ingestEventsLoop [rawGoodA, rawBadTime] = Except.error er) :=
  ⟨(ingest_skip_missing_abort_malformed [rawGoodA, rawMissing, rawGoodB]).1 (by decide),
   (ingest_skip_missing_abort_malformed [rawGoodA, rawBadTime]).2
     ⟨rawBadTime, by decide, by decide, by decide⟩⟩

/-! Review state machine claims. -/

/-- C9: in the date input mode, confirming with text that parses as a
2006-01-02 date switches to the default (browsing) mode and triggers a
reload for the parsed date, while confirming with unparseable text stores
the parse error into errorMessage and leaves everything else, the mode
included, unchanged. -/
theorem enter_date_confirm (m : Model) (todayDate : Int)
    (hMode : m.uiMode = UiMode.uiModeInputDate) :
    (∀ y mo d, parseDate m.inputDate = some (y, mo, d) →
        (m.update todayDate TeaMsg.keyEnter).1.uiMode = UiMode.uiModeDefault ∧
        (m.update todayDate TeaMsg.keyEnter).1.date = dateToUnix y mo d ∧
        (m.update todayDate TeaMsg.keyEnter).2 =
          Cmd.batch [Cmd.startSpinner, Cmd.setItems [], Cmd.loadEvents (dateToUnix y mo d)]) ∧
    (parseDate m.inputDate = none →
        (m.update todayDate TeaMsg.keyEnter).1 =
          { m with errorMessage := timeParseErrorMessage m.inputDate } ∧
        (m.update todayDate TeaMsg.keyEnter).2 = Cmd.noCmd) := by
  constructor
  · intro y mo d hp
    simp [Model.update, hMode, hp, Model.reloadEvents]
  · intro hp
    simp [Model.update, hMode, hp]

/-- C9 witness model: the date input mode holding a parseable date. -/
def mEnteringDate : Model :=
  { date := 0, events := [], inputDate := "2024-03-04", inputNote := "",
    selectedEventId := "", uiMode := UiMode.uiModeInputDate, errorMessage := "" }

theorem enter_date_confirm_witness :
    ((∀ y mo d, parseDate mEnteringDate.inputDate = some (y, mo, d) →
        (mEnteringDate.update 0 TeaMsg.keyEnter).1.uiMode = UiMode.uiModeDefault ∧
        (mEnteringDate.update 0 TeaMsg.keyEnter).1.date = dateToUnix y mo d ∧
        (mEnteringDate.update 0 TeaMsg.keyEnter).2 =
          Cmd.batch [Cmd.startSpinner, Cmd.setItems [], Cmd.loadEvents (dateToUnix y mo d)]) ∧
     (parseDate mEnteringDate.inputDate = none →
        (mEnteringDate.update 0 TeaMsg.keyEnter).1 =
          { mEnteringDate with errorMessage := timeParseErrorMessage mEnteringDate.inputDate } ∧
        (mEnteringDate.update 0 TeaMsg.keyEnter).2 = Cmd.noCmd)) :=
  enter_date_confirm mEnteringDate 0 rfl

/-- C10: confirming a note for an event id absent from the current event
list issues no patch, leaves the event list untouched and yields the
non-fatal "Event not found" message. -/
theorem note_patch_unknown_id (events : List LoadedEvent) (eventId note : String)
    (outcome : PatchOutcome) (h : ∀ e ∈ events, e.item.Id ≠ eventId) :
    updateEventNote events eventId note outcome
      = (events, none, Msg.nonFatalError "Event not found") := by
  have hf : events.find? (fun e => e.item.Id == eventId) = none := by
    rw [List.find?_eq_none]
    intro x hx
    simpa using h x hx
  simp [updateEventNote, hf]

/-- C10 witness list: one loaded event whose id differs from the target. -/
def loadedA : LoadedEvent := { item := evA, ConflictsWith := [] }

theorem note_patch_unknown_id_witness :
    updateEventNote [loadedA] "absent-id" "hello" PatchOutcome.ok
      = ([loadedA], none, Msg.nonFatalError "Event not found") :=
  note_patch_unknown_id [loadedA] "absent-id" "hello" PatchOutcome.ok (by decide)

/-- C3 evidence event: an unanswered invitation with a self attendee. -/
def attSelfNeeds : Attendee :=
  { Self := true, ResponseStatus := "needsAction", Comment := "" }

def evNeeds : EventItem :=
  { Id := "n", Summary := "invite", Start := 0, End := 3600,
    AttendeeStatus := "needsAction", Attendees := [attSelfNeeds] }

/-- The self attendee after the optimistic status overwrite. -/
def attSelfAccepted : Attendee := { attSelfNeeds with ResponseStatus := "accepted" }

/-- The event after the optimistic status overwrite. -/
def evNeedsAccepted : EventItem := { evNeeds with
  AttendeeStatus := "accepted",
  Attendees := [attSelfAccepted] }

/-- The self attendee after the optimistic note overwrite. -/
def attSelfNoted : Attendee := { attSelfNeeds with Comment := "running late" }

/-- The event after the optimistic note overwrite. -/
def evNeedsNoted : EventItem := { evNeeds with Attendees := [attSelfNoted] }

/-- C3 evidence: on a failing accept patch the code has already
overwritten the local responseStatus before the call and then terminates
through log.Fatalf instead of surfacing lastError, and on a failing note
patch the error is non-fatal but the local note was already overwritten;
both contradict the claim that failures are non-fatal with the local
event state left unmodified. -/
theorem patch_failure_fatal_and_optimistic :
    (updateEventStatus evNeeds "accepted" (PatchOutcome.fail "patch failed")
      = (evNeedsAccepted, CmdResult.fatal "patch failed")) ∧
    (updateEventNote [{ item := evNeeds, ConflictsWith := [] }] "n" "running late"
        (PatchOutcome.fail "network down")
      = ([{ item := evNeedsNoted, ConflictsWith := [] }],
         some { eventId := "n", attendees := [attSelfNoted] },
         Msg.nonFatalError ("Failed to update note: " ++ "network down"))) := by
  constructor
  · rfl
  · rfl

/-- C2 run: the raw events the collaborator returns for day one and day
two after the epoch. -/
def rawDay1 : RawEvent :=
  { Id := "day1-ev", Summary := "on day one", StartRaw := RawTime.valid 118800,
    EndRaw := RawTime.valid 122400, Attendees := [], CreatorSelf := true }

def rawDay2 : RawEvent :=
  { Id := "day2-ev", Summary := "on day two", StartRaw := RawTime.valid 205200,
    EndRaw := RawTime.valid 208800, Attendees := [], CreatorSelf := true }

/-- Fetch environment for the stale-reload run: day one and day two hold
different single events. -/
def fetchEnvEx (d : Int) : List RawEvent :=
  if d == day then [rawDay1] else if d == 2 * day then [rawDay2] else []

/-- Initial browsing model at the epoch day. -/
def mStart : Model :=
  { date := 0, events := [], inputDate := "", inputNote := "",
    selectedEventId := "", uiMode := UiMode.uiModeDefault, errorMessage := "" }

/-- Model after pressing next-day twice before any reload resolves. -/
def mAfterPresses : Model :=
  (((mStart.update 0 (TeaMsg.key KeyAction.nextDay)).1.update 0
      (TeaMsg.key KeyAction.nextDay))).1

/-- Enriched result of the first (stale) reload. -/
def day1Loaded : List LoadedEvent := detectConflicts [ingestRaw rawDay1 118800 122400]

/-- Enriched result of the second reload. -/
def day2Loaded : List LoadedEvent := detectConflicts [ingestRaw rawDay2 205200 208800]

/-- C2 evidence: pressing next-day twice issues reloads capturing day one
and then day two; the eventsLoadedMsg carries no day or request token,
and when the first (stale) reload result arrives after the second press
the Update function stores its events unconditionally, so the state ends
with date equal to day two but the day-one events — the stale result is
applied, not discarded. -/
theorem stale_reload_applied :
    (mStart.update 0 (TeaMsg.key KeyAction.nextDay)).2
      = Cmd.batch [Cmd.startSpinner, Cmd.setItems [], Cmd.loadEvents day] ∧
    ((mStart.update 0 (TeaMsg.key KeyAction.nextDay)).1.update 0
        (TeaMsg.key KeyAction.nextDay)).2
      = Cmd.batch [Cmd.startSpinner, Cmd.setItems [], Cmd.loadEvents (2 * day)] ∧
    mAfterPresses.date = 2 * day ∧
    loadEventsRun (fetchEnvEx day) = Except.ok (Msg.eventsLoaded day1Loaded) ∧
    (mAfterPresses.update 0 (TeaMsg.app (Msg.eventsLoaded day1Loaded))).1.events
      = day1Loaded ∧
    (mAfterPresses.update 0 (TeaMsg.app (Msg.eventsLoaded day1Loaded))).1.date
      = 2 * day ∧
    day1Loaded ≠ day2Loaded := by
  refine ⟨rfl, rfl, by decide, rfl, rfl, by decide, by decide⟩

end GcalTui
